import Mathlib

/-!
Formal model of the ollamachat core: the Ollama streaming response decoder
(`internal/llm`, `OllamaProvider.handleStreamingResponse`), the chat UI query
orchestration (`internal/ui/chat.go`), the prompt context builder
(`ChatUI.buildPromptWithHistory`), the file-backed session store
(`internal/storage/file.go`, session-based revision), and session id
generation (`internal/models`, `generateSessionID`).

Machine integers in the source are modelled as `Nat`/`Int`; instants
(`time.Time`) are modelled as a Unix second count plus nanoseconds
(`GoTime`) where sub-second precision matters, and as a plain `Nat` tick
where only ordering and equality matter.  Fallible operations return
`Except`.  Go's float64 `Temperature` field is carried as `Rat`; no float
arithmetic is performed on it anywhere in the modelled code.
-/

namespace OllamaChat

/-- One chat message (`models.ChatMessage`): sender is `"user"` or `"llm"`,
content text, and a creation timestamp. -/
structure ChatMessage where
  sender : String
  content : String
  timestamp : Nat
deriving Repr, DecidableEq

/-- One chat session (`models.ChatSession`, multi-session revision):
id, display name, ordered message list, created/updated instants and the
per-session preference fields. -/
structure ChatSession where
  id : String
  name : String
  messages : List ChatMessage
  createdAt : Nat
  updatedAt : Nat
  model : String
  provider : String
  maxMessages : Int
  temperature : Rat
deriving Repr, DecidableEq

/-- Embeds `ChatSession.AddMessage`: append a message and refresh `UpdatedAt`.
The `now` parameter stands for the `time.Now()` call inside the method. -/
def AddMessage (cs : ChatSession) (m : ChatMessage) (now : Nat) : ChatSession :=
  { cs with messages := cs.messages ++ [m], updatedAt := now }

/-! ## Provider client: Ollama streaming response decoding -/

/-- One decoded frame of the Ollama streaming response body
(the anonymous struct in `OllamaProvider.handleStreamingResponse`):
a text fragment, a completion flag, and an optional error string. -/
structure OllamaFrame where
  response : String
  done : Bool
  error : String
deriving Repr, DecidableEq

/-- Outcome of one `decoder.Decode` call on the response body: a decoded
frame, or a JSON decoding failure (any non-EOF decoder error).  The end of
the list itself models EOF. -/
inductive DecodeResult where
  | frame (f : OllamaFrame)
  | malformed
deriving Repr, DecidableEq

/-- The decode loop of `OllamaProvider.handleStreamingResponse`, threading
the `newStream` flag.  Returns the sequence of `(chunk, newStream)` pairs
delivered to the `onUpdate` callback, paired with `none` on a nil return
and `some msg` when the loop returns an error.  EOF (`[]`) breaks out of
the loop and returns nil; a malformed frame returns the decode error; a
frame with a non-empty `error` field returns the ollama error; a non-empty
`response` fragment is delivered and clears `newStream`; a frame with
`done` set breaks out of the loop. -/
def runStream : List DecodeResult → Bool → List (String × Bool) × Option String
  | [], _ => ([], none)
  | .malformed :: _, _ => ([], some "failed to decode response")
  | .frame f :: rest, ns =>
    if f.error ≠ "" then ([], some ("ollama error: " ++ f.error))
    else if f.response ≠ "" then
      if f.done then ([(f.response, ns)], none)
      else
        let out := runStream rest false
        ((f.response, ns) :: out.1, out.2)
    else
      if f.done then ([], none)
      else runStream rest ns

/-- Embeds `OllamaProvider.handleStreamingResponse`: run the decode loop with
`newStream` initially true. -/
def handleStreamingResponse (body : List DecodeResult) : List (String × Bool) × Option String :=
  runStream body true

/-- A well-formed fragment-only frame: non-terminal, no error field. -/
def mkFragFrame (f : String) : DecodeResult :=
  .frame { response := f, done := false, error := "" }

/-- The terminal frame of a normal stream: completion flag only. -/
def doneFrame : DecodeResult :=
  .frame { response := "", done := true, error := "" }

/-- A normally terminated response body: fragment frames followed by the
completion-bearing frame. -/
def streamBody (fs : List String) : List DecodeResult :=
  fs.map mkFragFrame ++ [doneFrame]

/-- A response body that ends with an error-bearing frame instead of the
completion flag. -/
def errorBody (fs : List String) (e : String) : List DecodeResult :=
  fs.map mkFragFrame ++ [.frame { response := "", done := false, error := e }]

/-- Expected callback sequence for fragments `fs` when the `newStream` flag
starts at `ns`: the first fragment carries `ns`, all later ones `false`. -/
def tagFrom (ns : Bool) : List String → List (String × Bool)
  | [] => []
  | f :: rest => (f, ns) :: tagFrom false rest

/-- Expected callback sequence of a fresh stream: first chunk tagged
`true`, all subsequent chunks tagged `false`. -/
def tagChunks (fs : List String) : List (String × Bool) :=
  tagFrom true fs

/-! ## Query orchestrator: the streaming callback of `ChatUI.sendMessageToLLM` -/

/-- One message card of the conversation transcript
(`widget.Card` created by `ChatUI.addMessageCard`): a title
(`"You:"` or `"LLM:"`) and markdown content. -/
structure Card where
  title : String
  content : String
deriving Repr, DecidableEq

/-- State threaded through the streaming callback of
`ChatUI.sendMessageToLLM`: the current session, the conversation
transcript, and the local `llmResponse` accumulator. -/
structure CBState where
  session : ChatSession
  transcript : List Card
  llmResponse : String
deriving Repr, DecidableEq

/-- The non-new-stream branch of the callback: if the session has messages
and the last one is from the llm, overwrite its content with the
accumulated response; otherwise leave the session unchanged. -/
def updateLastLLM (s : ChatSession) (c : String) : ChatSession :=
  match s.messages.getLast? with
  | some m => if m.sender = "llm" then
      { s with messages := s.messages.dropLast ++ [{ m with content := c }] }
    else s
  | none => s

/-- Embeds `ChatUI.updateRichText` applied to the in-flight stream card, which in
an uninterleaved turn is the last card of the transcript: overwrite its
content with the accumulated response. -/
def updateLastCard (tr : List Card) (c : String) : List Card :=
  match tr.getLast? with
  | some card => tr.dropLast ++ [{ card with content := c }]
  | none => tr

/-- One invocation of the streaming callback in `ChatUI.sendMessageToLLM`
on chunk `ck` (fragment text and `newStream` tag).  On a new stream the
chunk becomes the content of a fresh card and of a fresh llm message
appended via `AddMessage`; otherwise the chunk is appended to the local
`llmResponse` accumulator, which is written into the stream card and into
the last session message when that message is from the llm.  `t` stands
for the `time.Now()` of the llm message creation. -/
def applyChunk (t : Nat) (st : CBState) (ck : String × Bool) : CBState :=
  if ck.2 then
    { session := AddMessage st.session { sender := "llm", content := ck.1, timestamp := t } t
      transcript := st.transcript ++ [{ title := "LLM:", content := ck.1 }]
      llmResponse := ck.1 }
  else
    let r := st.llmResponse ++ ck.1
    { session := updateLastLLM st.session r
      transcript := updateLastCard st.transcript r
      llmResponse := r }

/-- The whole callback sequence of one streamed turn, in delivery order. -/
def applyChunks (t : Nat) (st : CBState) (cks : List (String × Bool)) : CBState :=
  cks.foldl (applyChunk t) st

/-- Embeds `ChatUI.onCancelButtonTapped`, transcript effect: when a cancellable
query is in flight (`cancelFunc != nil`) the context is cancelled and a
cancellation marker card is appended to the conversation transcript with
`saveToHistory` false, so the session record is not touched. -/
def onCancelButtonTapped (hasCancelFunc : Bool) (tr : List Card) : List Card :=
  if hasCancelFunc then tr ++ [{ title := "LLM:", content := "\n\n**Request canceled**" }] else tr

/-- Embeds `ChatUI.handleLLMResponseError`: append an error marker card exactly
when the query returned an error whose text is not `"context canceled"`. -/
def handleLLMResponseError (tr : List Card) (err : Option String) : List Card :=
  match err with
  | none => tr
  | some e => if e ≠ "context canceled" then
      tr ++ [{ title := "LLM:", content := "\n**Error:** " ++ e }]
    else tr

/-! ## Context builder: `ChatUI.buildPromptWithHistory` -/

/-- Rendering of one history message inside the prompt: `user:` lines for
user messages, `llm:` lines for everything else, newline-terminated. -/
def renderMsg (m : ChatMessage) : String :=
  if m.sender = "user" then "user: " ++ m.content ++ "\n"
  else "llm: " ++ m.content ++ "\n"

/-- Embeds `ChatUI.buildPromptWithHistory`: fixed system preamble, then the
messages from index `start := max 0 (len - maxMessages)` to the end
(the `for i := start; i < len` loop walks exactly the suffix
`messages.drop start`), then the new user line and the trailing `llm:`
role marker.  `maxMessages` is a Go `int` and may be negative. -/
def buildPromptWithHistory (messages : List ChatMessage) (newUserMessage : String)
    (maxMessages : Int) : String :=
  let start : Int :=
    if (messages.length : Int) - maxMessages < 0 then 0
    else (messages.length : Int) - maxMessages
  let hist := (messages.drop start.toNat).foldl (fun acc m => acc ++ renderMsg m) ""
  "You are a helpful assistant.\n\n" ++ hist ++ "user: " ++ newUserMessage ++ "\nllm:"

/-! ## Session store: `FileStorage` (session-based revision of
`internal/storage/file.go`) -/

/-- Parse outcome of one stored record: a session (JSON round-trips every
`ChatSession` field losslessly) or corrupt data that fails to unmarshal. -/
inductive Record where
  | good (s : ChatSession)
  | corrupt
deriving Repr, DecidableEq

/-- One entry of the `sessions` directory as seen by `os.ReadDir`:
file name, directory flag, and the outcome of reading and parsing it. -/
structure DirEntry where
  name : String
  isDir : Bool
  record : Record
deriving Repr, DecidableEq

/-- The observable state of the file store rooted at `basePath`: whether
the `sessions` subdirectory exists, whether enumerating it fails
(`os.ReadDir` error), and its entries. -/
structure FileStore where
  sessionsDirExists : Bool
  readDirFails : Bool
  entries : List DirEntry
deriving Repr, DecidableEq

/-- Storage failures surfaced by the store, tagged by cause: the
`"session not found"` errors produced on `os.IsNotExist`, other I/O
failures, and JSON unmarshal failures. -/
inductive StorageErr where
  | notFound (id : String)
  | ioFailure
  | parseFailure
deriving Repr, DecidableEq

/-- Effect of `os.WriteFile` on the directory listing: overwrite the
record of the entry named `n` if present, otherwise append a fresh file
entry of that name. -/
def upsertEntry (entries : List DirEntry) (n : String) (r : Record) : List DirEntry :=
  if entries.any (·.name = n) then
    entries.map (fun e => if e.name = n then { name := n, isDir := false, record := r } else e)
  else entries ++ [{ name := n, isDir := false, record := r }]

/-- Embeds `FileStorage.SaveChatSession` (session-based revision): ensure the
`sessions` directory exists (`os.MkdirAll`), refresh `UpdatedAt` to the
current instant `now`, marshal, and fully overwrite `<id>.json`. -/
def SaveChatSession (st : FileStore) (s : ChatSession) (now : Nat) : FileStore :=
  { st with
    sessionsDirExists := true
    entries := upsertEntry st.entries (s.id ++ ".json") (.good { s with updatedAt := now }) }

/-- Embeds `FileStorage.LoadChatSession` (session-based revision): read
`<id>.json`; a missing file is reported as the not-found error, a
directory in its place as an I/O failure, unparseable content as an
unmarshal failure. -/
def LoadChatSession (st : FileStore) (sessionID : String) : Except StorageErr ChatSession :=
  match st.entries.find? (·.name = sessionID ++ ".json") with
  | none => .error (.notFound sessionID)
  | some e =>
    if e.isDir then .error .ioFailure
    else match e.record with
      | .good s => .ok s
      | .corrupt => .error .parseFailure

/-- Embeds `strings.HasSuffix`, computed on the character sequence of the
string. -/
def hasSuffix (s post : String) : Bool :=
  post.data.isSuffixOf s.data

/-- Embeds `strings.TrimSuffix`: drop the suffix when present, else return the
string unchanged, computed on the character sequence. -/
def trimSuffix (s post : String) : String :=
  if hasSuffix s post then String.mk (s.data.take (s.data.length - post.data.length)) else s

/-- Body of the listing loop of `FileStorage.ListChatSessions` for one
directory entry: skip directories and non-`.json` names, then attempt
`LoadChatSession` on the trimmed name and skip entries that fail to
load. -/
def loadEntry (st : FileStore) (e : DirEntry) : Option ChatSession :=
  if e.isDir then none
  else if ¬ (hasSuffix e.name ".json") then none
  else match LoadChatSession st (trimSuffix e.name ".json") with
    | .ok s => some s
    | .error _ => none

/-- The sessions whose records load successfully, in directory order. -/
def loadableSessions (st : FileStore) : List ChatSession :=
  if st.sessionsDirExists = false then [] else st.entries.filterMap (loadEntry st)

/-- The final `sort.Slice` of `FileStorage.ListChatSessions` with
comparator `sessions[i].UpdatedAt.After(sessions[j].UpdatedAt)`: reorder
into non-increasing `updatedAt`. -/
def sortByUpdatedDesc (l : List ChatSession) : List ChatSession :=
  l.mergeSort (fun a b => b.updatedAt ≤ a.updatedAt)

/-- Embeds `FileStorage.ListChatSessions` (session-based revision): an absent
`sessions` directory yields the empty list, a failing `os.ReadDir` an
I/O error; otherwise each entry is loaded (skipping directories,
non-`.json` names and entries that fail to load) and the result is sorted
by `updatedAt`, most recent first. -/
def ListChatSessions (st : FileStore) : Except StorageErr (List ChatSession) :=
  if st.sessionsDirExists = false then .ok []
  else if st.readDirFails then .error .ioFailure
  else .ok (sortByUpdatedDesc (st.entries.filterMap (loadEntry st)))

/-- Embeds `FileStorage.DeleteChatSession` (session-based revision): `os.Remove`
on `<id>.json`; a missing file is reported as the not-found error. -/
def DeleteChatSession (st : FileStore) (sessionID : String) : Except StorageErr FileStore :=
  if st.entries.any (·.name = sessionID ++ ".json") then
    .ok { st with entries := st.entries.eraseP (·.name = sessionID ++ ".json") }
  else .error (.notFound sessionID)

/-! ## Session id generation (`models.generateSessionID`) -/

/-- A `time.Time` instant: Unix seconds plus sub-second nanoseconds. -/
structure GoTime where
  sec : Nat
  nsec : Nat
deriving Repr, DecidableEq

/-- Civil date (year, month, day) from a count of days since 1970-01-01,
in the proleptic Gregorian calendar. -/
def civilFromDays (z0 : Nat) : Nat × Nat × Nat :=
  let z := z0 + 719468
  let era := z / 146097
  let doe := z % 146097
  let yoe := (doe - doe / 1460 + doe / 36524 - doe / 146096) / 365
  let y := yoe + era * 400
  let doy := doe - (365 * yoe + yoe / 4 - yoe / 100)
  let mp := (5 * doy + 2) / 153
  let d := doy - (153 * mp + 2) / 5 + 1
  let m := if mp < 10 then mp + 3 else mp - 9
  (if m ≤ 2 then y + 1 else y, m, d)

/-- Zero-padded two-digit decimal rendering. -/
def pad2 (n : Nat) : String :=
  if n < 10 then "0" ++ toString n else toString n

/-- Go's reference layout `"20060102-150405"` applied to a wall-clock
second count (UTC): `yyyymmdd-hhmmss`.  The output depends only on the
second count; sub-second precision is discarded by the layout. -/
def formatYmdHms (sec : Nat) : String :=
  let rem := sec % 86400
  let ymd := civilFromDays (sec / 86400)
  toString ymd.1 ++ pad2 ymd.2.1 ++ pad2 ymd.2.2 ++ "-"
    ++ pad2 (rem / 3600) ++ pad2 (rem % 3600 / 60) ++ pad2 (rem % 60)

/-- Embeds `models.generateSessionID`: `time.Now().Format("20060102-150405")`,
a pure function of the creation instant truncated to whole seconds. -/
def generateSessionID (t : GoTime) : String :=
  formatYmdHms t.sec

/-- Embeds `models.NewChatSession`: fresh session with a generated id, empty
message list, both instants set to now, and the default provider,
context window and temperature from `internal/constants`. -/
def NewChatSession (name model : String) (t : GoTime) : ChatSession :=
  { id := generateSessionID t
    name := name
    messages := []
    createdAt := t.sec
    updatedAt := t.sec
    model := model
    provider := "ollama"
    maxMessages := 10
    temperature := 7 / 10 }

/-! ## One full turn of the query orchestrator -/

/-- The session/store/transcript effects of one turn: `onSendButtonTapped`
appends the user message (`addMessageCard` with `saveToHistory` true,
which calls `AddMessage` and auto-saves), then `sendMessageToLLM` streams
the response body through the callback, saves the final session state and
runs `handleLLMResponseError` on the outcome.  `tUser`, `tChunk` and
`tSave` stand for the `time.Now()` instants of the three phases. -/
def runTurn (store : FileStore) (s : ChatSession) (tr : List Card) (userText : String)
    (body : List DecodeResult) (tUser tChunk tSave : Nat) :
    FileStore × ChatSession × List Card :=
  let s1 := AddMessage s { sender := "user", content := userText, timestamp := tUser } tUser
  let store1 := SaveChatSession store s1 tUser
  let tr1 := tr ++ [{ title := "You:", content := userText }]
  let res := handleStreamingResponse body
  let st := applyChunks tChunk { session := s1, transcript := tr1, llmResponse := "" } res.1
  let store2 := SaveChatSession store1 st.session tSave
  let tr2 := handleLLMResponseError st.transcript res.2
  (store2, st.session, tr2)

/-! ## Concrete fixtures used by the witness theorems -/

/-- A concrete two-message history. -/
def wMsgs : List ChatMessage :=
  [{ sender := "user", content := "q1", timestamp := 0 },
   { sender := "llm", content := "a1", timestamp := 1 }]

/-- A concrete empty session. -/
def wSession : ChatSession :=
  { id := "s1", name := "w", messages := [], createdAt := 0, updatedAt := 0,
    model := "", provider := "ollama", maxMessages := 10, temperature := 0 }

/-- A concrete store with an existing `sessions` directory and no
entries. -/
def wStore : FileStore :=
  { sessionsDirExists := true, readDirFails := false, entries := [] }

/-! ## Helper lemmas -/

theorem string_foldl_eq_join (l : List String) (a : String) :
    l.foldl (fun r s => r ++ s) a = a ++ String.join l := by
  induction l generalizing a with
  | nil => simp [String.join]
  | cons x xs ih =>
    simp only [String.join, List.foldl_cons]
    rw [ih (a ++ x), ih ("" ++ x), String.empty_append, String.append_assoc]

theorem string_join_cons (x : String) (xs : List String) :
    String.join (x :: xs) = x ++ String.join xs := by
  have h := string_foldl_eq_join xs x
  simp only [String.join, List.foldl_cons, String.empty_append] at *
  exact h

theorem tagFrom_false (fs : List String) :
    tagFrom false fs = fs.map (fun f => (f, false)) := by
  induction fs with
  | nil => rfl
  | cons f fsx ih => simp [tagFrom, ih]

theorem tagFrom_map_fst (ns : Bool) (fs : List String) :
    (tagFrom ns fs).map Prod.fst = fs := by
  induction fs generalizing ns with
  | nil => rfl
  | cons f fsx ih => simp [tagFrom, ih]

theorem runStream_frags (fs : List String) (rest : List DecodeResult) (ns : Bool)
    (h : ∀ f ∈ fs, f ≠ "") :
    runStream (fs.map mkFragFrame ++ rest) ns
      = (tagFrom ns fs ++ (runStream rest (if fs.isEmpty then ns else false)).1,
         (runStream rest (if fs.isEmpty then ns else false)).2) := by
  induction fs generalizing ns with
  | nil => simp [tagFrom]
  | cons f fsx ih =>
    have hf : f ≠ "" := h f (List.mem_cons_self f fsx)
    have hrest : ∀ g ∈ fsx, g ≠ "" := fun g hg => h g (List.mem_cons_of_mem f hg)
    have hunfold : runStream (mkFragFrame f :: (fsx.map mkFragFrame ++ rest)) ns
        = ((f, ns) :: (runStream (fsx.map mkFragFrame ++ rest) false).1,
           (runStream (fsx.map mkFragFrame ++ rest) false).2) := by
      simp [runStream, mkFragFrame, hf]
    simp only [List.map_cons, List.cons_append]
    rw [hunfold, ih false hrest]
    cases fsx <;> simp [tagFrom]

theorem runStream_doneOnly (b : Bool) : runStream [doneFrame] b = ([], none) := by
  simp [runStream, doneFrame]

theorem runStream_errOnly (e : String) (b : Bool) (he : e ≠ "") :
    runStream [DecodeResult.frame { response := "", done := false, error := e }] b
      = ([], some ("ollama error: " ++ e)) := by
  simp [runStream, he]

theorem handleStream_streamBody (fs : List String) (h : ∀ f ∈ fs, f ≠ "") :
    handleStreamingResponse (streamBody fs) = (tagChunks fs, none) := by
  unfold handleStreamingResponse streamBody tagChunks
  rw [runStream_frags fs [doneFrame] true h]
  cases fs <;> simp [runStream_doneOnly]

theorem handleStream_errorBody (fs : List String) (e : String) (h : ∀ f ∈ fs, f ≠ "")
    (he : e ≠ "") :
    handleStreamingResponse (errorBody fs e) = (tagChunks fs, some ("ollama error: " ++ e)) := by
  unfold handleStreamingResponse errorBody tagChunks
  rw [runStream_frags fs _ true h]
  cases fs <;> simp [runStream_errOnly _ _ he]

theorem applyChunks_tagFalse (t0 : Nat) (gs : List String) :
    ∀ (s : ChatSession) (M : List ChatMessage) (r : String) (C : List Card) (card : Card),
      s.messages = M ++ [{ sender := "llm", content := r, timestamp := t0 }] →
      card.content = r →
      applyChunks t0 { session := s, transcript := C ++ [card], llmResponse := r }
          (gs.map (fun g => (g, false)))
        = { session := { s with messages :=
              M ++ [{ sender := "llm", content := r ++ String.join gs, timestamp := t0 }] }
            transcript := C ++ [{ card with content := r ++ String.join gs }]
            llmResponse := r ++ String.join gs } := by
  induction gs with
  | nil =>
    intro s M r C card hmsg hcard
    simp only [List.map_nil, applyChunks, List.foldl_nil, String.join, String.append_empty]
    rw [← hmsg, ← hcard]
  | cons g gsx ih =>
    intro s M r C card hmsg hcard
    simp only [List.map_cons, applyChunks, List.foldl_cons]
    have hstep : applyChunk t0 { session := s, transcript := C ++ [card], llmResponse := r }
        (g, false)
        = { session := { s with messages :=
              M ++ [{ sender := "llm", content := r ++ g, timestamp := t0 }] }
            transcript := C ++ [{ card with content := r ++ g }]
            llmResponse := r ++ g } := by
      simp only [applyChunk, ite_false, updateLastLLM, updateLastCard, hmsg,
        List.getLast?_concat, List.dropLast_concat]
      simp
    rw [hstep]
    have := ih { s with messages :=
        M ++ [{ sender := "llm", content := r ++ g, timestamp := t0 }] }
      M (r ++ g) C { card with content := r ++ g } (by simp) rfl
    simp only [applyChunks] at this
    rw [this, string_join_cons, ← String.append_assoc]

theorem applyChunks_tagChunks (t : Nat) (fs : List String) (s : ChatSession) (tr : List Card)
    (hfs : fs ≠ []) :
    applyChunks t { session := s, transcript := tr, llmResponse := "" } (tagChunks fs)
      = { session := { s with
            messages := s.messages
              ++ [{ sender := "llm", content := String.join fs, timestamp := t }]
            updatedAt := t }
          transcript := tr ++ [{ title := "LLM:", content := String.join fs }]
          llmResponse := String.join fs } := by
  match fs with
  | [] => exact absurd rfl hfs
  | f :: fsx =>
    simp only [tagChunks, tagFrom, tagFrom_false, applyChunks, List.foldl_cons]
    have hstep : applyChunk t { session := s, transcript := tr, llmResponse := "" } (f, true)
        = { session := { s with
              messages := s.messages ++ [{ sender := "llm", content := f, timestamp := t }]
              updatedAt := t }
            transcript := tr ++ [{ title := "LLM:", content := f }]
            llmResponse := f } := by
      simp [applyChunk, AddMessage]
    rw [hstep]
    have := applyChunks_tagFalse t fsx
      { s with
        messages := s.messages ++ [{ sender := "llm", content := f, timestamp := t }]
        updatedAt := t }
      s.messages f tr { title := "LLM:", content := f } (by simp) rfl
    simp only [applyChunks] at this
    rw [this, string_join_cons]

/-! ## Claims about the streaming pipeline -/

/-- Claim C1: for a streamed response whose frames carry the non-empty
fragments `fs` followed by a completion-bearing frame, the decoder
succeeds, delivering exactly the fragments in order (none dropped or
reordered), the first delivered chunk tagged as a new stream and every
subsequent chunk tagged false; and the orchestrator's accumulated
assistant message content after the stream equals the in-order
concatenation of the fragments. -/
theorem claim_c1_streaming_accumulation (fs : List String) (s : ChatSession) (tr : List Card)
    (t : Nat) (hne : ∀ f ∈ fs, f ≠ "") (hfs : fs ≠ []) :
    handleStreamingResponse (streamBody fs) = (tagChunks fs, none)
    ∧ (tagChunks fs).map Prod.fst = fs
    ∧ (tagChunks fs).map Prod.snd = true :: List.replicate (fs.length - 1) false
    ∧ (applyChunks t { session := s, transcript := tr, llmResponse := "" }
        (tagChunks fs)).session.messages
        = s.messages ++ [{ sender := "llm", content := String.join fs, timestamp := t }] := by
  refine ⟨handleStream_streamBody fs hne, tagFrom_map_fst true fs, ?_, ?_⟩
  · match fs with
    | [] => exact absurd rfl hfs
    | f :: fsx =>
      simp only [tagChunks, tagFrom, tagFrom_false, List.map_cons, List.map_map]
      simp [Function.comp_def, List.map_const', List.length_cons]
  · rw [applyChunks_tagChunks t fs s tr hfs]

/-- Witness for C1 at the concrete stream `["Hi", " there"]`. -/
theorem claim_c1_witness :
    handleStreamingResponse (streamBody ["Hi", " there"]) = (tagChunks ["Hi", " there"], none)
    ∧ (tagChunks ["Hi", " there"]).map Prod.fst = ["Hi", " there"]
    ∧ (tagChunks ["Hi", " there"]).map Prod.snd
        = true :: List.replicate (["Hi", " there"].length - 1) false
    ∧ (applyChunks 7
        { session :=
            { id := "s1", name := "w", messages := [], createdAt := 0, updatedAt := 0,
              model := "", provider := "ollama", maxMessages := 10, temperature := 0 }
          transcript := [], llmResponse := "" } (tagChunks ["Hi", " there"])).session.messages
        = [] ++ [{ sender := "llm", content := String.join ["Hi", " there"], timestamp := 7 }] :=
  claim_c1_streaming_accumulation ["Hi", " there"]
    { id := "s1", name := "w", messages := [], createdAt := 0, updatedAt := 0,
      model := "", provider := "ollama", maxMessages := 10, temperature := 0 }
    [] 7 (by decide) (by decide)

theorem runStream_noerr (frames : List OllamaFrame) (h : ∀ f ∈ frames, f.error = "") :
    ∀ ns, (runStream (frames.map DecodeResult.frame) ns).2 = none := by
  induction frames with
  | nil => intro ns; rfl
  | cons f rest ih =>
    intro ns
    have hf : f.error = "" := h f (List.mem_cons_self f rest)
    have hrest : ∀ g ∈ rest, g.error = "" := fun g hg => h g (List.mem_cons_of_mem f hg)
    simp only [List.map_cons, runStream, hf]
    split
    · simp_all
    · split
      · split
        · rfl
        · simpa using ih hrest false
      · split
        · rfl
        · exact ih hrest ns

/-- Counterexample to Claim C5: a response body that reaches end-of-input
after a single fragment frame and before any completion-bearing frame.
The decoder reports success (`none` in the error position) rather than a
framing failure, refuting the claim that end-of-input before a completion
flag is reported as an error. -/
theorem claim_c5_counterexample :
    handleStreamingResponse [mkFragFrame "hi"] = ([("hi", true)], none) := by
  decide

/-- Claim C5 as amended: end-of-input and the completion flag are both
normal terminators.  Decoding any stream of well-formed frames none of
which carries an error string succeeds, whether or not a
completion-bearing frame was ever observed; only a malformed frame or an
error-bearing frame makes the decoder fail. -/
theorem claim_c5_amended (frames : List OllamaFrame) (h : ∀ f ∈ frames, f.error = "") :
    (handleStreamingResponse (frames.map DecodeResult.frame)).2 = none :=
  runStream_noerr frames h true

/-- Witness for the amended C5 at a concrete frame list with no
completion-bearing frame. -/
theorem claim_c5_amended_witness :
    (handleStreamingResponse
      ([{ response := "a", done := false, error := "" },
        { response := "b", done := false, error := "" }].map DecodeResult.frame)).2 = none :=
  claim_c5_amended
    [{ response := "a", done := false, error := "" },
     { response := "b", done := false, error := "" }] (by decide)

/-! ## Claim about the context builder -/

/-- Claim C2: for any context window `n` and history `H`,
`buildPromptWithHistory` renders the fixed system preamble, then exactly
the last `min n (len H)` history messages (for `n ≥ 0`), in their
original chronological order (a contiguous suffix of `H`), each as a
`role: content` line, then the new user line and a trailing `llm:` role
marker; for `n ≤ 0` no history messages are included. -/
theorem claim_c2_context_window (H : List ChatMessage) (new : String) (n : Int) :
    buildPromptWithHistory H new n
        = "You are a helpful assistant.\n\n"
          ++ String.join ((H.drop (H.length - n.toNat)).map renderMsg)
          ++ "user: " ++ new ++ "\nllm:"
    ∧ (H.drop (H.length - n.toNat)).length = min n.toNat H.length
    ∧ H.drop (H.length - n.toNat) <:+ H
    ∧ (n ≤ 0 → H.drop (H.length - n.toNat) = []) := by
  have hdrop :
      H.drop (if (H.length : Int) - n < 0 then 0 else (H.length : Int) - n).toNat
        = H.drop (H.length - n.toNat) := by
    by_cases hneg : (H.length : Int) - n < 0
    · rw [if_pos hneg]
      have h1 : H.length - n.toNat = 0 := by omega
      rw [h1]
      rfl
    · rw [if_neg hneg]
      by_cases hn : 0 ≤ n
      · have h1 : ((H.length : Int) - n).toNat = H.length - n.toNat := by omega
        rw [h1]
      · have h1 : H.length ≤ ((H.length : Int) - n).toNat := by omega
        have h2 : H.length ≤ H.length - n.toNat := by omega
        rw [List.drop_eq_nil_iff.mpr h1, List.drop_eq_nil_iff.mpr h2]
  refine ⟨?_, ?_, List.drop_suffix _ H, ?_⟩
  · have hfold : ∀ l : List ChatMessage,
        List.foldl (fun acc m => acc ++ renderMsg m) "" l = String.join (l.map renderMsg) := by
      intro l
      have h2 := List.foldl_map renderMsg (fun r s : String => r ++ s) l ""
      rw [string_foldl_eq_join, String.empty_append] at h2
      exact h2.symm
    simp only [buildPromptWithHistory]
    rw [hdrop, hfold]
  · rw [List.length_drop]
    omega
  · intro hn
    have h1 : n.toNat = 0 := by omega
    rw [h1]
    simp

/-- Witness for C2 at a concrete two-message history with a negative
window, exercising the no-history case. -/
theorem claim_c2_witness :
    buildPromptWithHistory wMsgs "q2" (-2)
        = "You are a helpful assistant.\n\n"
          ++ String.join ((wMsgs.drop (wMsgs.length - (-2 : Int).toNat)).map renderMsg)
          ++ "user: " ++ "q2" ++ "\nllm:"
    ∧ (wMsgs.drop (wMsgs.length - (-2 : Int).toNat)).length = min (-2 : Int).toNat wMsgs.length
    ∧ wMsgs.drop (wMsgs.length - (-2 : Int).toNat) <:+ wMsgs
    ∧ ((-2 : Int) ≤ 0 → wMsgs.drop (wMsgs.length - (-2 : Int).toNat) = []) :=
  claim_c2_context_window wMsgs "q2" (-2)

/-! ## Claims about the session store -/

theorem find?_upsertEntry (l : List DirEntry) (n : String) (r : Record) :
    (upsertEntry l n r).find? (fun e => e.name = n)
      = some { name := n, isDir := false, record := r } := by
  induction l with
  | nil => simp [upsertEntry]
  | cons e l ih =>
    by_cases he : e.name = n
    · have hany : (e :: l).any (fun x => x.name = n) = true := by simp [he]
      simp [upsertEntry, hany, he]
    · by_cases hl : l.any (fun x => x.name = n) = true
      · have hany : (e :: l).any (fun x => x.name = n) = true := by simp [hl]
        simpa [upsertEntry, hany, he, hl] using ih
      · have hany : (e :: l).any (fun x => x.name = n) = false := by simp [he, hl]
        simpa [upsertEntry, hany, he, hl] using ih

theorem load_after_save (st : FileStore) (s : ChatSession) (now : Nat) :
    LoadChatSession (SaveChatSession st s now) s.id
      = .ok { s with updatedAt := now } := by
  simp [LoadChatSession, SaveChatSession, find?_upsertEntry]

/-- Counterexample to Claim C3: saving a session whose `updated_at` is 0
at instant 5 and loading it back does not return the session
field-for-field, because `SaveChatSession` refreshes `updated_at` before
writing. -/
theorem claim_c3_counterexample :
    LoadChatSession (SaveChatSession wStore wSession 5) "s1"
      = .ok { wSession with updatedAt := 5 }
    ∧ ({ wSession with updatedAt := 5 } : ChatSession) ≠ wSession := by
  exact ⟨rfl, by decide⟩

/-- Claim C3 as amended: `save(s)` at instant `now` followed by
`load(s.id)` returns `s` with its `updated_at` field refreshed to the
save instant; every other field, including the order of the message
list, round-trips exactly.  In particular the round-trip is the identity
precisely when `s.updated_at` already equals the save instant. -/
theorem claim_c3_roundtrip (st : FileStore) (s : ChatSession) (now : Nat) :
    LoadChatSession (SaveChatSession st s now) s.id
      = .ok { s with updatedAt := now } :=
  load_after_save st s now

/-- Claim C4: for every store whose directory enumeration succeeds,
`ListChatSessions` returns (without error) a list holding every loadable
session, sorted by `updatedAt` in non-increasing order, and returns the
empty list rather than an error when no sessions exist. -/
theorem claim_c4_list_sorted (st : FileStore) (h : st.readDirFails = false) :
    ∃ l, ListChatSessions st = .ok l
      ∧ List.Pairwise (fun a b => b.updatedAt ≤ a.updatedAt) l
      ∧ l.Perm (loadableSessions st)
      ∧ (st.sessionsDirExists = false → l = []) := by
  by_cases hd : st.sessionsDirExists = false
  · refine ⟨[], ?_, List.Pairwise.nil, ?_, fun _ => rfl⟩
    · simp [ListChatSessions, hd]
    · simp [loadableSessions, hd]
  · have hd2 : st.sessionsDirExists = true := by
      cases hval : st.sessionsDirExists
      · exact absurd hval hd
      · rfl
    refine ⟨sortByUpdatedDesc (st.entries.filterMap (loadEntry st)), ?_, ?_, ?_, ?_⟩
    · simp [ListChatSessions, hd2, h]
    · have htrans : ∀ a b c : ChatSession,
          (decide (b.updatedAt ≤ a.updatedAt)) = true →
          (decide (c.updatedAt ≤ b.updatedAt)) = true →
          (decide (c.updatedAt ≤ a.updatedAt)) = true := by
        intro a b c hab hbc
        simp only [decide_eq_true_eq] at *
        omega
      have htotal : ∀ a b : ChatSession,
          (decide (b.updatedAt ≤ a.updatedAt) || decide (a.updatedAt ≤ b.updatedAt)) = true := by
        intro a b
        simp only [Bool.or_eq_true, decide_eq_true_eq]
        omega
      have hs := List.sorted_mergeSort htrans htotal (st.entries.filterMap (loadEntry st))
      refine List.Pairwise.imp ?_ hs
      intro a b hab
      exact of_decide_eq_true hab
    · have hperm := List.mergeSort_perm (st.entries.filterMap (loadEntry st))
        (fun a b => decide (b.updatedAt ≤ a.updatedAt))
      simpa [sortByUpdatedDesc, loadableSessions, hd2] using hperm
    · intro hfalse
      rw [hd2] at hfalse
      cases hfalse

/-- Witness for C4 at a concrete store with an existing, enumerable and
empty sessions directory. -/
theorem claim_c4_witness :
    ∃ l, ListChatSessions wStore = .ok l
      ∧ List.Pairwise (fun a b => b.updatedAt ≤ a.updatedAt) l
      ∧ l.Perm (loadableSessions wStore)
      ∧ (wStore.sessionsDirExists = false → l = []) :=
  claim_c4_list_sorted wStore rfl

theorem eraseP_any_false (l : List DirEntry) (n : String)
    (h : (l.map (fun e => e.name)).Nodup) :
    ((l.eraseP (fun e => e.name = n)).any (fun e => e.name = n)) = false := by
  induction l with
  | nil => rfl
  | cons e l ih =>
    rw [List.map_cons, List.nodup_cons] at h
    by_cases he : e.name = n
    · rw [List.eraseP_cons_of_pos (by simp [he])]
      rw [List.any_eq_false]
      intro x hx
      simp only [decide_eq_true_eq]
      intro hxn
      have hmem : x.name ∈ l.map (fun e => e.name) := List.mem_map_of_mem (fun e => e.name) hx
      rw [hxn, ← he] at hmem
      exact h.1 hmem
    · rw [List.eraseP_cons_of_neg (by simp [he])]
      simp only [List.any_cons, Bool.or_eq_false_iff]
      exact ⟨by simp [he], ih h.2⟩

/-- Claim C8: `DeleteChatSession` fails with the not-found error exactly
when no record with the requested id exists, succeeds otherwise, and a
second delete of the same id after a successful one reports not-found
rather than crashing (for any store whose directory entry names are
distinct, as names in one directory are). -/
theorem claim_c8_delete_idempotent (st : FileStore) (sessionID : String)
    (h : (st.entries.map (fun e => e.name)).Nodup) :
    (st.entries.any (fun e => e.name = sessionID ++ ".json") = false →
       DeleteChatSession st sessionID = .error (.notFound sessionID))
    ∧ (st.entries.any (fun e => e.name = sessionID ++ ".json") = true →
       ∃ st2, DeleteChatSession st sessionID = .ok st2)
    ∧ (∀ st2, DeleteChatSession st sessionID = .ok st2 →
       DeleteChatSession st2 sessionID = .error (.notFound sessionID)) := by
  refine ⟨?_, ?_, ?_⟩
  · intro hno
    simp [DeleteChatSession, hno]
  · intro hyes
    exact ⟨{ st with entries := st.entries.eraseP (fun e => e.name = sessionID ++ ".json") },
      by simp [DeleteChatSession, hyes]⟩
  · intro st2 hok
    by_cases hany : st.entries.any (fun e => e.name = sessionID ++ ".json") = true
    · have hst2 : st2 = { st with entries := st.entries.eraseP (fun e => e.name = sessionID ++ ".json") } := by
        simp only [DeleteChatSession, hany, if_true] at hok
        exact ((Except.ok.injEq _ _).mp hok).symm
      have hgone := eraseP_any_false st.entries (sessionID ++ ".json") h
      rw [hst2]
      simp [DeleteChatSession, hgone]
    · simp only [DeleteChatSession] at hok
      rw [if_neg hany] at hok
      cases hok

/-- Witness for C8 at a concrete one-entry store. -/
theorem claim_c8_witness :
    (([{ name := "a.json", isDir := false, record := Record.corrupt }] :
          List DirEntry).any (fun e => e.name = "a" ++ ".json") = false →
       DeleteChatSession
         { sessionsDirExists := true, readDirFails := false,
           entries := [{ name := "a.json", isDir := false, record := Record.corrupt }] } "a"
         = .error (.notFound "a"))
    ∧ (([{ name := "a.json", isDir := false, record := Record.corrupt }] :
          List DirEntry).any (fun e => e.name = "a" ++ ".json") = true →
       ∃ st2, DeleteChatSession
         { sessionsDirExists := true, readDirFails := false,
           entries := [{ name := "a.json", isDir := false, record := Record.corrupt }] } "a"
         = .ok st2)
    ∧ (∀ st2, DeleteChatSession
         { sessionsDirExists := true, readDirFails := false,
           entries := [{ name := "a.json", isDir := false, record := Record.corrupt }] } "a"
         = .ok st2 →
       DeleteChatSession st2 "a" = .error (.notFound "a")) :=
  claim_c8_delete_idempotent
    { sessionsDirExists := true, readDirFails := false,
      entries := [{ name := "a.json", isDir := false, record := Record.corrupt }] } "a"
    (by decide)

theorem trimSuffix_append (s post : String) (h : hasSuffix s post = true) :
    trimSuffix s post ++ post = s := by
  unfold trimSuffix
  rw [if_pos h]
  unfold hasSuffix at h
  rw [List.isSuffixOf_iff_suffix] at h
  obtain ⟨pre, hpre⟩ := h
  apply String.ext
  rw [String.data_append]
  show (s.data.take (s.data.length - post.data.length)) ++ post.data = s.data
  rw [← hpre]
  simp [List.length_append, List.take_left]

theorem find?_append_of_found (p : DirEntry → Bool) (l1 l2 : List DirEntry)
    (h : (l1.find? p).isSome) : (l1 ++ l2).find? p = l1.find? p := by
  rw [List.find?_append]
  cases hval : l1.find? p
  · rw [hval] at h
    cases h
  · simp

theorem loadEntry_append_corrupt (st st2 : FileStore) (c : DirEntry)
    (hent : st2.entries = st.entries ++ [c]) :
    ∀ e ∈ st.entries, loadEntry st2 e = loadEntry st e := by
  intro e he
  unfold loadEntry
  by_cases hdir : e.isDir
  · simp [hdir]
  · by_cases hsuf : hasSuffix e.name ".json"
    · simp only [hdir, Bool.false_eq_true, if_false, hsuf, not_true_eq_false, ite_false]
      have hkey : trimSuffix e.name ".json" ++ ".json" = e.name :=
        trimSuffix_append e.name ".json" hsuf
      have hsome : (st.entries.find?
          (fun x => x.name = trimSuffix e.name ".json" ++ ".json")).isSome := by
        rw [List.find?_isSome]
        exact ⟨e, he, by simp [hkey]⟩
      unfold LoadChatSession
      rw [hent, find?_append_of_found _ _ _ hsome]
    · simp [hdir, hsuf]

theorem loadEntry_corrupt_none (st st2 : FileStore) (c : DirEntry) (hc : c.record = .corrupt)
    (hcd : c.isDir = false) (hent : st2.entries = st.entries ++ [c])
    (hf : ∀ x ∈ st.entries, x.name ≠ c.name) :
    loadEntry st2 c = none := by
  unfold loadEntry
  by_cases hsuf : hasSuffix c.name ".json"
  · simp only [hcd, Bool.false_eq_true, if_false, hsuf, not_true_eq_false, ite_false]
    have hkey : trimSuffix c.name ".json" ++ ".json" = c.name :=
      trimSuffix_append c.name ".json" hsuf
    have hnone : (st.entries.find?
        (fun x => x.name = trimSuffix c.name ".json" ++ ".json")) = none := by
      rw [List.find?_eq_none]
      intro x hx
      simp only [decide_eq_true_eq, hkey]
      exact hf x hx
    unfold LoadChatSession
    rw [hent, List.find?_append, hnone]
    simp [hkey, hc, hcd]
  · simp [hcd, hsuf]

/-- Claim C10: a stored record that fails to load (here: corrupt content
that fails to parse) is silently skipped by `ListChatSessions` — adding
such a record to a store leaves the listing result unchanged — and when
the directory is enumerable the listing still succeeds, returning
exactly the sessions whose records load. -/
theorem claim_c10_corrupt_skipped (st : FileStore) (c : DirEntry)
    (hc : c.record = .corrupt) (hcd : c.isDir = false)
    (hf : ∀ x ∈ st.entries, x.name ≠ c.name) :
    ListChatSessions { st with entries := st.entries ++ [c] } = ListChatSessions st
    ∧ (st.sessionsDirExists = true → st.readDirFails = false →
        ∃ l, ListChatSessions { st with entries := st.entries ++ [c] } = .ok l
          ∧ l.Perm (loadableSessions st)) := by
  have hcore : ∀ st2 : FileStore, st2.entries = st.entries ++ [c] →
      List.filterMap (loadEntry st2) (st.entries ++ [c])
        = List.filterMap (loadEntry st) st.entries := by
    intro st2 hent
    rw [List.filterMap_append, List.filterMap_congr (loadEntry_append_corrupt st st2 c hent)]
    simp [loadEntry_corrupt_none st st2 c hc hcd hent hf]
  have hmain : ListChatSessions { st with entries := st.entries ++ [c] } = ListChatSessions st := by
    unfold ListChatSessions
    by_cases hd : st.sessionsDirExists = false
    · simp [hd]
    · by_cases hr : st.readDirFails
      · simp [hd, hr]
      · simp only [hd, Bool.false_eq_true, if_false, hr, ite_false]
        unfold sortByUpdatedDesc
        have hrw := hcore { sessionsDirExists := true, readDirFails := false, entries := st.entries ++ [c] } rfl
        rw [hrw]
  refine ⟨hmain, ?_⟩
  intro hd hr
  refine ⟨sortByUpdatedDesc (st.entries.filterMap (loadEntry st)), ?_, ?_⟩
  · rw [hmain]
    simp [ListChatSessions, hd, hr]
  · have hperm := List.mergeSort_perm (st.entries.filterMap (loadEntry st))
      (fun a b => decide (b.updatedAt ≤ a.updatedAt))
    simpa [sortByUpdatedDesc, loadableSessions, hd] using hperm

/-- Witness for C10: a fresh corrupt record appended to a concrete
one-good-entry store is skipped. -/
theorem claim_c10_witness :
    ListChatSessions { wStore with entries := wStore.entries
        ++ [{ name := "bad.json", isDir := false, record := Record.corrupt }] }
      = ListChatSessions wStore
    ∧ (wStore.sessionsDirExists = true → wStore.readDirFails = false →
        ∃ l, ListChatSessions { wStore with entries := wStore.entries
            ++ [{ name := "bad.json", isDir := false, record := Record.corrupt }] }
          = .ok l ∧ l.Perm (loadableSessions wStore)) :=
  claim_c10_corrupt_skipped wStore
    { name := "bad.json", isDir := false, record := Record.corrupt } rfl rfl
    (by decide)

/-! ## Claim about session id generation -/

/-- Claim C9, code-bug demonstration: `generateSessionID` renders the
creation instant with the second-resolution layout `"20060102-150405"`,
so two distinct session-creation instants falling in the same wall-clock
second (here Unix second 1736000000 with different sub-second offsets)
produce sessions with identical ids, contradicting the claimed
uniqueness of ids across distinct creation calls. -/
theorem claim_c9_collision :
    (NewChatSession "A" "" { sec := 1736000000, nsec := 1 }).id
      = (NewChatSession "B" "" { sec := 1736000000, nsec := 999999999 }).id
    ∧ ({ sec := 1736000000, nsec := 1 } : GoTime)
        ≠ { sec := 1736000000, nsec := 999999999 }
    ∧ (NewChatSession "A" "" { sec := 1736000000, nsec := 1 }).id = "20250104-141320" :=
  ⟨rfl, by decide, rfl⟩

/-! ## Claims about cancellation and provider failure handling -/

/-- Claim C6: when a turn is cancelled mid-stream after the chunks
`tagChunks fs` were delivered, the partial assistant content accumulated
in the session is exactly the concatenation of the delivered fragments
and is kept (not rolled back); the cancel handler appends a
distinguishable cancellation marker card to the conversation transcript
(and touches only the transcript, not the session record); saving then
persists the session with the partial content; and a query result whose
error text is `"context canceled"` produces no error entry. -/
theorem claim_c6_cancellation (store : FileStore) (s : ChatSession) (tr tr2 : List Card)
    (fs : List String) (t now : Nat) (hfs : fs ≠ []) :
    (applyChunks t { session := s, transcript := tr, llmResponse := "" }
        (tagChunks fs)).session.messages
      = s.messages ++ [{ sender := "llm", content := String.join fs, timestamp := t }]
    ∧ onCancelButtonTapped true
        (applyChunks t { session := s, transcript := tr, llmResponse := "" }
          (tagChunks fs)).transcript
      = (applyChunks t { session := s, transcript := tr, llmResponse := "" }
          (tagChunks fs)).transcript
        ++ [{ title := "LLM:", content := "\n\n**Request canceled**" }]
    ∧ LoadChatSession
        (SaveChatSession store
          (applyChunks t { session := s, transcript := tr, llmResponse := "" }
            (tagChunks fs)).session now)
        s.id
      = .ok { (applyChunks t { session := s, transcript := tr, llmResponse := "" }
              (tagChunks fs)).session with updatedAt := now }
    ∧ handleLLMResponseError tr2 (some "context canceled") = tr2 := by
  rw [applyChunks_tagChunks t fs s tr hfs]
  refine ⟨rfl, rfl, ?_, by simp [handleLLMResponseError]⟩
  exact load_after_save store _ now

/-- Witness for C6 at the concrete stream `["Hi", " there"]`. -/
theorem claim_c6_witness :
    (applyChunks 7 { session := wSession, transcript := [], llmResponse := "" }
        (tagChunks ["Hi", " there"])).session.messages
      = wSession.messages
        ++ [{ sender := "llm", content := String.join ["Hi", " there"], timestamp := 7 }]
    ∧ onCancelButtonTapped true
        (applyChunks 7 { session := wSession, transcript := [], llmResponse := "" }
          (tagChunks ["Hi", " there"])).transcript
      = (applyChunks 7 { session := wSession, transcript := [], llmResponse := "" }
          (tagChunks ["Hi", " there"])).transcript
        ++ [{ title := "LLM:", content := "\n\n**Request canceled**" }]
    ∧ LoadChatSession
        (SaveChatSession wStore
          (applyChunks 7 { session := wSession, transcript := [], llmResponse := "" }
            (tagChunks ["Hi", " there"])).session 9)
        wSession.id
      = .ok { (applyChunks 7 { session := wSession, transcript := [], llmResponse := "" }
              (tagChunks ["Hi", " there"])).session with updatedAt := 9 }
    ∧ handleLLMResponseError [] (some "context canceled") = [] :=
  claim_c6_cancellation wStore wSession [] [] ["Hi", " there"] 7 9 (by decide)

theorem ollamaError_ne (e : String) : "ollama error: " ++ e ≠ "context canceled" := by
  intro hcontra
  have hd := congrArg String.data hcontra
  rw [String.data_append] at hd
  have h1 : "ollama error: ".data = 'o' :: "llama error: ".data := rfl
  have h2 : "context canceled".data = 'c' :: "ontext canceled".data := rfl
  rw [h1, h2, List.cons_append] at hd
  injection hd with hhead
  exact absurd hhead (by decide)

/-- Claim C7: when the provider fails mid-stream with an error other than
cancellation (here: an error-bearing frame after the fragments `fs`),
the turn ends in a failed outcome carrying the provider error; an
error-describing card is appended at the end of the conversation
transcript; any partial assistant content already received is retained
in the session, as is the original user message; and the session is
persisted in that state. -/
theorem claim_c7_provider_failure (store : FileStore) (s : ChatSession) (tr : List Card)
    (userText : String) (fs : List String) (e : String) (tU tC tS : Nat)
    (hne : ∀ f ∈ fs, f ≠ "") (he : e ≠ "") :
    (handleStreamingResponse (errorBody fs e)).2 = some ("ollama error: " ++ e)
    ∧ (runTurn store s tr userText (errorBody fs e) tU tC tS).2.1.messages
        = (s.messages ++ [{ sender := "user", content := userText, timestamp := tU }])
          ++ (if fs = [] then []
              else [{ sender := "llm", content := String.join fs, timestamp := tC }])
    ∧ (runTurn store s tr userText (errorBody fs e) tU tC tS).2.2.getLast?
        = some { title := "LLM:", content := "\n**Error:** " ++ ("ollama error: " ++ e) }
    ∧ LoadChatSession (runTurn store s tr userText (errorBody fs e) tU tC tS).1
        (runTurn store s tr userText (errorBody fs e) tU tC tS).2.1.id
        = .ok { (runTurn store s tr userText (errorBody fs e) tU tC tS).2.1
                with updatedAt := tS } := by
  have hres := handleStream_errorBody fs e hne he
  have herr : handleLLMResponseError
      ((applyChunks tC
        { session := AddMessage s { sender := "user", content := userText, timestamp := tU } tU
          transcript := tr ++ [{ title := "You:", content := userText }]
          llmResponse := "" } (tagChunks fs)).transcript)
      (some ("ollama error: " ++ e))
      = (applyChunks tC
          { session := AddMessage s { sender := "user", content := userText, timestamp := tU } tU
            transcript := tr ++ [{ title := "You:", content := userText }]
            llmResponse := "" } (tagChunks fs)).transcript
        ++ [{ title := "LLM:", content := "\n**Error:** " ++ ("ollama error: " ++ e) }] := by
    simp [handleLLMResponseError, ollamaError_ne e]
  refine ⟨by rw [hres], ?_, ?_, ?_⟩ <;>
    simp only [runTurn, hres] <;>
    rcases fs with _ | ⟨f, fsx⟩
  · simp [applyChunks, tagChunks, tagFrom, AddMessage]
  · rw [applyChunks_tagChunks tC _ _ _ (by simp)]
    simp [AddMessage]
  · simp only [applyChunks, tagChunks, tagFrom, List.foldl_nil] at herr ⊢
    rw [herr]
    simp
  · rw [applyChunks_tagChunks tC _ _ _ (by simp)] at herr ⊢
    rw [herr]
    simp
  · simp only [applyChunks, tagChunks, tagFrom, List.foldl_nil]
    exact load_after_save _ _ tS
  · rw [applyChunks_tagChunks tC _ _ _ (by simp)]
    exact load_after_save _ _ tS

/-- Witness for C7 at the concrete stream `["par"]` failing with error
`"boom"`. -/
theorem claim_c7_witness :
    (handleStreamingResponse (errorBody ["par"] "boom")).2 = some ("ollama error: " ++ "boom")
    ∧ (runTurn wStore wSession [] "hello" (errorBody ["par"] "boom") 1 2 3).2.1.messages
        = (wSession.messages ++ [{ sender := "user", content := "hello", timestamp := 1 }])
          ++ (if (["par"] : List String) = [] then []
              else [{ sender := "llm", content := String.join ["par"], timestamp := 2 }])
    ∧ (runTurn wStore wSession [] "hello" (errorBody ["par"] "boom") 1 2 3).2.2.getLast?
        = some { title := "LLM:", content := "\n**Error:** " ++ ("ollama error: " ++ "boom") }
    ∧ LoadChatSession (runTurn wStore wSession [] "hello" (errorBody ["par"] "boom") 1 2 3).1
        (runTurn wStore wSession [] "hello" (errorBody ["par"] "boom") 1 2 3).2.1.id
        = .ok { (runTurn wStore wSession [] "hello" (errorBody ["par"] "boom") 1 2 3).2.1
                with updatedAt := 3 } :=
  claim_c7_provider_failure wStore wSession [] "hello" ["par"] "boom" 1 2 3
    (by decide) (by decide)

end OllamaChat
